import Mathlib

/-!
Verification of the GPU compilation core of this repository against its
design specification.  The development shallowly embeds:

* `RemoveUnusedAndUninitializedGlobals` (the GlobalPruner) and the guard
  around it in `CompileModuleToLlvmIr`
  (xla/service/gpu/compile_module_to_llvm_ir.cc),
* `ForAllThunks` (the OpTreeWalker) from the same file,
* the argument-attribute verification of `GetMlirAllocationInfo`,
* the per-color alignment function handed to the buffer assigner,
* the DeviceLinker `CompileAndLinkUsingLibNvJitLink`, modelled from the
  specification because its implementation is not among the given sources
  (only its test, xla/stream_executor/cuda/nvjitlink_test.cc, is).
-/

namespace XlaGpu

/-! ## GlobalPruner: module globals and constant records -/

/-- An LLVM global variable, abstracted to what
`RemoveUnusedAndUninitializedGlobals` inspects: its symbol name and how many
uses it has inside the module (`use_empty()` is `numUses = 0`).  The globals
handled here carry no initializer in the module, hence no outgoing
references, so erasing one never changes the use count of another. -/
structure GlobalVariable where
  name : String
  numUses : Nat
deriving DecidableEq

/-- Embedding of `GpuExecutable::ConstantInfo`: a symbol name and the byte
content of the constant (empty content means the constant is initialized inside the LLVM
module itself). -/
structure ConstantInfo where
  symbol_name : String
  content : List Nat
deriving DecidableEq

/-- Lookup `llvm::Module::getGlobalVariable(name)`: the global of the module with
the given name, if any. -/
def getGlobalVariable (llvm_module : List GlobalVariable) (n : String) :
    Option GlobalVariable :=
  llvm_module.find? (fun g => g.name == n)

/-- Predicate `llvm::GlobalValue::use_empty()`. -/
def use_empty (g : GlobalVariable) : Bool := g.numUses == 0

/-- Embedding of `RemoveUnusedAndUninitializedGlobals`
(compile_module_to_llvm_ir.cc, lines 331-346).  For each constant whose
content is non-empty the module global named by it is looked up; the bare
`CHECK(global != nullptr)` (a process abort, not an error return) is
modelled by `none`; the global is erased from the module when it has no
uses.  Constants with empty content are skipped entirely. -/
def RemoveUnusedAndUninitializedGlobals :
    List GlobalVariable → List ConstantInfo → Option (List GlobalVariable)
  | llvm_module, [] => some llvm_module
  | llvm_module, info :: rest =>
    if info.content.isEmpty then
      RemoveUnusedAndUninitializedGlobals llvm_module rest
    else
      match getGlobalVariable llvm_module info.symbol_name with
      | none => none
      | some global =>
        if use_empty global then
          RemoveUnusedAndUninitializedGlobals (llvm_module.erase global) rest
        else
          RemoveUnusedAndUninitializedGlobals llvm_module rest

/-! ## The guard around the pruner in `CompileModuleToLlvmIr` -/

/-- The platform identifier, as far as `CompileModuleToLlvmIr` inspects it:
it is only ever compared against `se::rocm::kROCmPlatformId`. -/
inductive PlatformId where
  | cuda
  | rocm
deriving DecidableEq

/-- The debug options consulted by the pruning guard. -/
structure DebugOptions where
  xla_gpu_enable_shared_constants : Bool
deriving DecidableEq

/-- The flag `supports_runtime_managed_constants` as computed in
`CompileModuleToLlvmIr` (lines 302-305): the platform is not ROCm and the
shared-constants flag is enabled. -/
def supports_runtime_managed_constants (platform_id : PlatformId)
    (debug_options : DebugOptions) : Bool :=
  (platform_id != PlatformId.rocm) &&
    debug_options.xla_gpu_enable_shared_constants

/-- The constant-pruning step of `CompileModuleToLlvmIr` (lines 302-311):
the pruner runs exactly when `supports_runtime_managed_constants` holds;
otherwise the module is passed through untouched. -/
def constantPruneStep (platform_id : PlatformId) (debug_options : DebugOptions)
    (llvm_module : List GlobalVariable) (constants : List ConstantInfo) :
    Option (List GlobalVariable) :=
  if supports_runtime_managed_constants platform_id debug_options then
    RemoveUnusedAndUninitializedGlobals llvm_module constants
  else
    some llvm_module

/-! ## OpTreeWalker: thunks and `ForAllThunks`

The thunk tree of compile_module_to_llvm_ir.cc.  `ForAllThunks` dispatches
on `thunk->kind()`: a `ConditionalThunk` holds one `SequentialThunk` per
branch (the walker recurses into the `thunks()` of each branch), a
`SequentialThunk` holds a `ThunkSequence`, a `WhileThunk` holds a condition
and a body `SequentialThunk`; every other kind is a leaf and the action is
applied to it.  We model a leaf by a numeric payload standing for the many
non-composite thunk kinds. -/

mutual
inductive GpuThunk where
  | leaf (payload : Nat)
  | sequential (thunks : ThunkSequence)
  | conditional (branch_thunks : BranchSeqList)
  | whileThunk (condition_thunk_sequence : ThunkSequence)
      (body_thunk_sequence : ThunkSequence)
inductive ThunkSequence where
  | nil
  | cons (thunk : GpuThunk) (rest : ThunkSequence)
inductive BranchSeqList where
  | nil
  | cons (branch : ThunkSequence) (rest : BranchSeqList)
end

mutual
/-- Embedding of `ForAllThunks` (compile_module_to_llvm_ir.cc, lines
149-170): walks a thunk sequence and returns, in order, the results of the
invocations of `fn`; composites are traversed, every other thunk has `fn`
applied to it. -/
def ForAllThunks (fn : GpuThunk → α) : ThunkSequence → List α
  | .nil => []
  | .cons thunk rest => forOneThunk fn thunk ++ ForAllThunks fn rest
/-- The per-thunk kind dispatch inside the loop of `ForAllThunks`. -/
def forOneThunk (fn : GpuThunk → α) : GpuThunk → List α
  | .conditional branch_thunks => forAllBranches fn branch_thunks
  | .sequential thunks => ForAllThunks fn thunks
  | .whileThunk condition_thunk_sequence body_thunk_sequence =>
      ForAllThunks fn condition_thunk_sequence ++
        ForAllThunks fn body_thunk_sequence
  | .leaf payload => [fn (GpuThunk.leaf payload)]
/-- The loop over the branch sequences of a conditional thunk. -/
def forAllBranches (fn : GpuThunk → α) : BranchSeqList → List α
  | .nil => []
  | .cons branch rest => ForAllThunks fn branch ++ forAllBranches fn rest
end

mutual
/-- Specification-side definition: the payloads of the Leaf nodes of a
thunk sequence, in tree order (for a Loop, the leaves of the condition
sub-tree come before those of the body sub-tree). -/
def leafPayloadsSeq : ThunkSequence → List Nat
  | .nil => []
  | .cons thunk rest => leafPayloadsOne thunk ++ leafPayloadsSeq rest
/-- Specification-side: the leaf payloads of a single op-tree node. -/
def leafPayloadsOne : GpuThunk → List Nat
  | .leaf payload => [payload]
  | .sequential thunks => leafPayloadsSeq thunks
  | .conditional branch_thunks => leafPayloadsBranches branch_thunks
  | .whileThunk condition_thunk_sequence body_thunk_sequence =>
      leafPayloadsSeq condition_thunk_sequence ++
        leafPayloadsSeq body_thunk_sequence
/-- Specification-side: the leaf payloads of all branches of a conditional. -/
def leafPayloadsBranches : BranchSeqList → List Nat
  | .nil => []
  | .cons branch rest => leafPayloadsSeq branch ++ leafPayloadsBranches rest
end

mutual
/-- Specification-side count of Leaf nodes of a thunk sequence. -/
def numLeavesSeq : ThunkSequence → Nat
  | .nil => 0
  | .cons thunk rest => numLeavesOne thunk + numLeavesSeq rest
/-- Specification-side count of Leaf nodes of one op-tree node. -/
def numLeavesOne : GpuThunk → Nat
  | .leaf _ => 1
  | .sequential thunks => numLeavesSeq thunks
  | .conditional branch_thunks => numLeavesBranches branch_thunks
  | .whileThunk condition_thunk_sequence body_thunk_sequence =>
      numLeavesSeq condition_thunk_sequence +
        numLeavesSeq body_thunk_sequence
/-- Specification-side count of Leaf nodes across the conditional branches. -/
def numLeavesBranches : BranchSeqList → Nat
  | .nil => 0
  | .cons branch rest => numLeavesSeq branch + numLeavesBranches rest
end

/-! ## GetMlirAllocationInfo: entry-function signature verification -/

/-- The type of an entry-function argument, abstracted to what
`GetMlirAllocationInfo` inspects: whether it is a shaped type, the byte
width of its element type when `GetElementTypeBytes` succeeds, and its
element count. -/
structure MlirArgType where
  isShaped : Bool
  elementTypeBytes : Option Nat
  numElements : Nat
deriving DecidableEq

/-- An entry-function argument: its type and the names of its argument
attributes. -/
structure MlirFuncArg where
  argType : MlirArgType
  attrNames : List String
deriving DecidableEq

/-- The allowlist of argument attribute names accepted by the verification
loop of `GetMlirAllocationInfo` (compile_module_to_llvm_ir.cc, lines
208-214). -/
def allowedArgAttrNames : List String :=
  ["lmhlo.params", "lmhlo.param_shape_index", "lmhlo.constant_name",
   "lmhlo.must_alias", "lmhlo.output_index"]

/-- The first loop of `GetMlirAllocationInfo` (lines 194-203): every
argument must have a shaped type with a known element byte width; its
buffer size is element count times element width.  `TF_RET_CHECK` and a
failing `GetElementTypeBytes` return a descriptive error. -/
def computeBufferSizes : List MlirFuncArg → Except String (List Nat)
  | [] => .ok []
  | arg :: rest =>
    if arg.argType.isShaped then
      match arg.argType.elementTypeBytes with
      | none => .error "GetElementTypeBytes failed"
      | some bytes =>
        match computeBufferSizes rest with
        | .error e => .error e
        | .ok sizes => .ok (arg.argType.numElements * bytes :: sizes)
    else
      .error "argument type is not a shaped type"

/-- The second loop of `GetMlirAllocationInfo` (lines 205-215): every
argument attribute name must belong to `allowedArgAttrNames`, otherwise
`TF_RET_CHECK` returns a descriptive error. -/
def checkArgAttrs : List MlirFuncArg → Except String Unit
  | [] => .ok ()
  | arg :: rest =>
    if arg.attrNames.all (fun a => allowedArgAttrNames.contains a) then
      checkArgAttrs rest
    else
      .error "unexpected argument attribute"

/-- Embedding of `GetMlirAllocationInfo` (lines 186-219), parametric in
`SetUpMlirAllocation` (defined in gpu_executable.cc, outside the given
sources): compute the buffer sizes, verify the argument attributes, then
hand over to `setUp`.  Any failure is returned as a descriptive error. -/
def GetMlirAllocationInfo {α : Type}
    (setUp : List Nat → Except String α) (args : List MlirFuncArg) :
    Except String α :=
  match computeBufferSizes args with
  | .error e => .error e
  | .ok sizes =>
    match checkArgAttrs args with
    | .error e => .error e
    | .ok _ => setUp sizes

/-! ## BufferPlanner argument: the per-color alignment function -/

/-- Embedding of `LogicalBuffer::Color`, an opaque compatibility tag. -/
abbrev LogicalBufferColor := Int

/-- Modelled from the spec: the alignment constant
`kXlaAllocatedBufferAlignBytes` comes from xla/service/gpu/gpu_constants.h,
which is not among the given sources; its particular numeric value is
irrelevant to the claims, which only concern its independence from the
color. -/
def kXlaAllocatedBufferAlignBytes : Nat := 128

/-- The per-color alignment lambda passed to `BufferAssigner::Run` in
`CompileModuleToLlvmIr` (lines 241-242): it discards its color argument and
returns `kXlaAllocatedBufferAlignBytes`. -/
def color_alignment : LogicalBufferColor → Nat :=
  fun _ => kXlaAllocatedBufferAlignBytes

/-! ## DeviceLinker

Modelled from the spec: the implementation of
`CompileAndLinkUsingLibNvJitLink` (xla/stream_executor/cuda/nvjitlink.cc)
is not among the given sources; only its test
(xla/stream_executor/cuda/nvjitlink_test.cc) is.  The model follows the
DeviceLinker contract of the specification: architecture check first, then
independent compilation of each unit with cooperative register-spill
cancellation, then linking with symbol resolution across the batch. -/

/-- An ordered compute-capability version tag (major, minor). -/
structure CudaComputeCapability where
  major : Nat
  minor : Nat
deriving DecidableEq

/-- Lexicographic strict order on compute capabilities: `ccExceeds a b`
holds when `a` is strictly newer than `b`. -/
def ccExceeds (a b : CudaComputeCapability) : Bool :=
  (b.major < a.major) || (b.major == a.major && b.minor < a.minor)

/-- The declared kind of a device code unit (`NvJitLinkInput::Type`). -/
inductive NvJitLinkInputKind where
  | kPtx
  | kCubin
deriving DecidableEq

/-- Modelled from the spec: one device code unit handed to the linker,
abstracted from its byte content to the features the contract mentions: the
symbols it defines and references, an optional artificial register cap (a
`.maxnreg` directive), and its register demand with and without the
toolchain optimizations (optimizations may shrink the demand so that the
cap is met). -/
structure NvJitLinkInput where
  kind : NvJitLinkInputKind
  defines : List String
  references : List String
  maxnreg : Option Nat
  regsNeeded : Nat
  regsNeededAfterOpt : Nat
deriving DecidableEq

/-- Embedding of `GpuAsmOpts`, reduced to the flag the tests exercise. -/
structure GpuAsmOpts where
  disable_gpuasm_optimizations : Bool
deriving DecidableEq

/-- The error kinds of the DeviceLinker contract. -/
inductive LinkError where
  | UnsupportedArchitecture
  | UnresolvedSymbol
  | RegisterSpillCancelled
  | InternalToolchainError
deriving DecidableEq

/-- The linked binary, abstracted to the symbols it provides. -/
structure LinkedBinary where
  symbols : List String
deriving DecidableEq

/-- Modelled from the spec: whether compiling a unit spills registers to
slower memory — its register demand (tight when optimizations are disabled)
exceeds its artificial register cap, when one is present. -/
def unitSpills (disableOpt : Bool) (u : NvJitLinkInput) : Bool :=
  match u.maxnreg with
  | none => false
  | some cap =>
      cap < (if disableOpt then u.regsNeeded else u.regsNeededAfterOpt)

/-- Modelled from the spec: compile one unit.  With spill cancellation
enabled, a unit that would spill registers aborts the batch with
`RegisterSpillCancelled`; a unit with unresolved externs still compiles
(references are only checked at link time). -/
def compileUnit (options : GpuAsmOpts) (cancel_if_reg_spill : Bool)
    (u : NvJitLinkInput) : Except LinkError NvJitLinkInput :=
  if cancel_if_reg_spill && unitSpills options.disable_gpuasm_optimizations u
  then
    .error .RegisterSpillCancelled
  else
    .ok u

/-- Modelled from the spec: `CompileAndLinkUsingLibNvJitLink`.  If the
target capability exceeds every architecture the toolchain supports, fail
with `UnsupportedArchitecture` before compiling anything; compile each unit
independently; at link time, fail with `UnresolvedSymbol` if any unit
references a symbol no unit of the batch defines; otherwise produce the
linked binary. -/
def CompileAndLinkUsingLibNvJitLink
    (supportedArchs : List CudaComputeCapability)
    (cc : CudaComputeCapability) (units : List NvJitLinkInput)
    (options : GpuAsmOpts) (cancel_if_reg_spill : Bool) :
    Except LinkError LinkedBinary :=
  if supportedArchs.all (fun a => ccExceeds cc a) then
    .error .UnsupportedArchitecture
  else
    match units.mapM (compileUnit options cancel_if_reg_spill) with
    | .error e => .error e
    | .ok objs =>
      let defined := (objs.map (fun o => o.defines)).flatten
      if objs.any (fun o => o.references.any (fun s => !defined.contains s))
      then
        .error .UnresolvedSymbol
      else
        .ok ⟨defined⟩

end XlaGpu

namespace XlaGpu

/-! ## Supporting lemmas about the pruner -/

theorem getGlobalVariable_some_mem {m : List GlobalVariable} {n : String}
    {g : GlobalVariable} (h : getGlobalVariable m n = some g) :
    g ∈ m ∧ g.name = n := by
  unfold getGlobalVariable at h
  refine ⟨List.mem_of_find?_eq_some h, ?_⟩
  have := List.find?_some h
  simpa using this

theorem getGlobalVariable_none {m : List GlobalVariable} {n : String}
    (h : getGlobalVariable m n = none) :
    ∀ g ∈ m, g.name ≠ n := by
  unfold getGlobalVariable at h
  intro g hg
  have := List.find?_eq_none.mp h g hg
  simpa using this

theorem getGlobalVariable_none_of_sublist {m m' : List GlobalVariable}
    {n : String} (hsub : List.Sublist m' m) (h : getGlobalVariable m n = none) :
    getGlobalVariable m' n = none := by
  unfold getGlobalVariable at h ⊢
  rw [List.find?_eq_none] at h ⊢
  intro g hg
  exact h g (hsub.mem hg)

/-- The pruner only ever shrinks the module: a surviving global was already
in the input module (in fact the output is a sublist of the input). -/
theorem RemoveUnusedAndUninitializedGlobals_sublist :
    ∀ (cs : List ConstantInfo) (m m' : List GlobalVariable),
      RemoveUnusedAndUninitializedGlobals m cs = some m' → List.Sublist m' m
  | [], m, m', h => by
      unfold RemoveUnusedAndUninitializedGlobals at h
      cases h
      exact List.Sublist.refl m
  | info :: rest, m, m', h => by
      unfold RemoveUnusedAndUninitializedGlobals at h
      by_cases hc : info.content.isEmpty
      · rw [if_pos hc] at h
        exact RemoveUnusedAndUninitializedGlobals_sublist rest m m' h
      · rw [if_neg hc] at h
        cases hfind : getGlobalVariable m info.symbol_name with
        | none => rw [hfind] at h; cases h
        | some global =>
          rw [hfind] at h
          dsimp only at h
          by_cases hu : use_empty global
          · rw [if_pos hu] at h
            exact (RemoveUnusedAndUninitializedGlobals_sublist rest _ m' h).trans
              (List.erase_sublist global m)
          · rw [if_neg hu] at h
            exact RemoveUnusedAndUninitializedGlobals_sublist rest m m' h

/-- A constant that cannot prune a given global (either its name differs or
its content is empty) can be dropped from the existential. -/
theorem exists_pruning_constant_cons {info : ConstantInfo}
    {rest : List ConstantInfo} {g : GlobalVariable}
    (hskip : info.symbol_name ≠ g.name ∨ info.content = []) :
    (∃ c ∈ info :: rest, c.symbol_name = g.name ∧ c.content ≠ []) ↔
      (∃ c ∈ rest, c.symbol_name = g.name ∧ c.content ≠ []) := by
  constructor
  · rintro ⟨c, hc, hn, hcon⟩
    rcases List.mem_cons.mp hc with rfl | hcr
    · rcases hskip with hne | hem
      · exact absurd hn hne
      · exact absurd hem hcon
    · exact ⟨c, hcr, hn, hcon⟩
  · rintro ⟨c, hc, hn, hcon⟩
    exact ⟨c, List.mem_cons_of_mem _ hc, hn, hcon⟩

/-- Complete characterization of the pruner on modules with distinct global
names: a global of the input module survives exactly when it is NOT the case
that it is unreferenced and some constant with non-empty content names it. -/
theorem RemoveUnusedAndUninitializedGlobals_mem_iff :
    ∀ (cs : List ConstantInfo) (m m' : List GlobalVariable),
      (m.map GlobalVariable.name).Nodup →
      RemoveUnusedAndUninitializedGlobals m cs = some m' →
      ∀ g ∈ m,
        (g ∈ m' ↔
          ¬ (g.numUses = 0 ∧ ∃ c ∈ cs, c.symbol_name = g.name ∧ c.content ≠ []))
  | [], m, m', _, h, g, hg => by
      unfold RemoveUnusedAndUninitializedGlobals at h
      cases h
      simp [hg]
  | info :: rest, m, m', hnd, h, g, hg => by
      unfold RemoveUnusedAndUninitializedGlobals at h
      by_cases hc : info.content.isEmpty
      · rw [if_pos hc] at h
        have hcontent : info.content = [] := by simpa using hc
        rw [RemoveUnusedAndUninitializedGlobals_mem_iff rest m m' hnd h g hg]
        exact (not_congr (and_congr_right fun _ =>
          (exists_pruning_constant_cons (Or.inr hcontent)).symm))
      · rw [if_neg hc] at h
        have hcne : info.content ≠ [] := fun he => hc (by simp [he])
        cases hfind : getGlobalVariable m info.symbol_name with
        | none => rw [hfind] at h; cases h
        | some g0 =>
          rw [hfind] at h
          dsimp only at h
          obtain ⟨hg0mem, hg0name⟩ := getGlobalVariable_some_mem hfind
          by_cases hu : use_empty g0
          · rw [if_pos hu] at h
            have huz : g0.numUses = 0 := by simpa [use_empty] using hu
            by_cases hname : g.name = info.symbol_name
            · have hgg0 : g = g0 :=
                List.inj_on_of_nodup_map hnd hg hg0mem (by rw [hname, hg0name])
              have hmnd : m.Nodup := List.Nodup.of_map _ hnd
              have hnotin : g ∉ m.erase g0 := by
                rw [hgg0]
                exact fun hmem => ((List.Nodup.mem_erase_iff hmnd).mp hmem).1 rfl
              have hsub := RemoveUnusedAndUninitializedGlobals_sublist rest _ m' h
              have hnotin' : g ∉ m' := fun hmem => hnotin (hsub.mem hmem)
              apply iff_of_false hnotin'
              intro hcontra
              exact hcontra ⟨hgg0 ▸ huz,
                info, List.mem_cons_self _ _, hname.symm, hcne⟩
            · have hgneq : g ≠ g0 := fun he => hname (he ▸ hg0name)
              have hgmem : g ∈ m.erase g0 := (List.mem_erase_of_ne hgneq).mpr hg
              have hnd' : ((m.erase g0).map GlobalVariable.name).Nodup :=
                List.Nodup.sublist
                  (List.Sublist.map _ (List.erase_sublist g0 m)) hnd
              rw [RemoveUnusedAndUninitializedGlobals_mem_iff rest
                (m.erase g0) m' hnd' h g hgmem]
              exact (not_congr (and_congr_right fun _ =>
                (exists_pruning_constant_cons
                  (Or.inl fun he => hname he.symm)).symm))
          · rw [if_neg hu] at h
            have hnz : g0.numUses ≠ 0 := by simpa [use_empty] using hu
            rw [RemoveUnusedAndUninitializedGlobals_mem_iff rest m m' hnd h g hg]
            by_cases hname : g.name = info.symbol_name
            · have hgg0 : g = g0 :=
                List.inj_on_of_nodup_map hnd hg hg0mem (by rw [hname, hg0name])
              constructor
              · intro _ hcontra
                exact hnz (hgg0 ▸ hcontra.1)
              · intro _ hcontra
                exact hnz (hgg0 ▸ hcontra.1)
            · exact (not_congr (and_congr_right fun _ =>
                (exists_pruning_constant_cons
                  (Or.inl fun he => hname he.symm)).symm))

/-- If some constant with non-empty content names a global absent from the
module, the pruner hits `CHECK(global != nullptr)` and the process aborts
(modelled by `none`): no error value is ever produced. -/
theorem RemoveUnusedAndUninitializedGlobals_aborts :
    ∀ (cs : List ConstantInfo) (m : List GlobalVariable),
      (∃ c ∈ cs, c.content ≠ [] ∧ getGlobalVariable m c.symbol_name = none) →
      RemoveUnusedAndUninitializedGlobals m cs = none
  | [], _, hex => by
      obtain ⟨c, hc, _⟩ := hex
      cases hc
  | info :: rest, m, hex => by
      obtain ⟨c, hc, hcon, hnone⟩ := hex
      unfold RemoveUnusedAndUninitializedGlobals
      rcases List.mem_cons.mp hc with rfl | hcr
      · have hne : ¬ c.content.isEmpty := by simpa using hcon
        rw [if_neg hne, hnone]
      · by_cases hce : info.content.isEmpty
        · rw [if_pos hce]
          exact RemoveUnusedAndUninitializedGlobals_aborts rest m
            ⟨c, hcr, hcon, hnone⟩
        · rw [if_neg hce]
          cases hfind : getGlobalVariable m info.symbol_name with
          | none => rfl
          | some g0 =>
            dsimp only
            by_cases hu : use_empty g0
            · rw [if_pos hu]
              exact RemoveUnusedAndUninitializedGlobals_aborts rest (m.erase g0)
                ⟨c, hcr, hcon,
                  getGlobalVariable_none_of_sublist
                    (List.erase_sublist g0 m) hnone⟩
            · rw [if_neg hu]
              exact RemoveUnusedAndUninitializedGlobals_aborts rest m
                ⟨c, hcr, hcon, hnone⟩

/-! ## OpTreeWalker lemmas -/

mutual
theorem ForAllThunks_eq_leafPayloads (fn : GpuThunk → α) :
    ∀ ts : ThunkSequence,
      ForAllThunks fn ts =
        (leafPayloadsSeq ts).map (fun p => fn (GpuThunk.leaf p))
  | .nil => by simp [ForAllThunks, leafPayloadsSeq]
  | .cons thunk rest => by
      simp only [ForAllThunks, leafPayloadsSeq, List.map_append]
      rw [forOneThunk_eq_leafPayloads fn thunk,
        ForAllThunks_eq_leafPayloads fn rest]
theorem forOneThunk_eq_leafPayloads (fn : GpuThunk → α) :
    ∀ t : GpuThunk,
      forOneThunk fn t =
        (leafPayloadsOne t).map (fun p => fn (GpuThunk.leaf p))
  | .leaf payload => by simp [forOneThunk, leafPayloadsOne]
  | .sequential thunks => by
      simp only [forOneThunk, leafPayloadsOne]
      exact ForAllThunks_eq_leafPayloads fn thunks
  | .conditional branch_thunks => by
      simp only [forOneThunk, leafPayloadsOne]
      exact forAllBranches_eq_leafPayloads fn branch_thunks
  | .whileThunk condition_thunk_sequence body_thunk_sequence => by
      simp only [forOneThunk, leafPayloadsOne, List.map_append]
      rw [ForAllThunks_eq_leafPayloads fn condition_thunk_sequence,
        ForAllThunks_eq_leafPayloads fn body_thunk_sequence]
theorem forAllBranches_eq_leafPayloads (fn : GpuThunk → α) :
    ∀ bs : BranchSeqList,
      forAllBranches fn bs =
        (leafPayloadsBranches bs).map (fun p => fn (GpuThunk.leaf p))
  | .nil => by simp [forAllBranches, leafPayloadsBranches]
  | .cons branch rest => by
      simp only [forAllBranches, leafPayloadsBranches, List.map_append]
      rw [ForAllThunks_eq_leafPayloads fn branch,
        forAllBranches_eq_leafPayloads fn rest]
end

mutual
theorem leafPayloadsSeq_length :
    ∀ ts : ThunkSequence, (leafPayloadsSeq ts).length = numLeavesSeq ts
  | .nil => rfl
  | .cons thunk rest => by
      simp only [leafPayloadsSeq, numLeavesSeq, List.length_append]
      rw [leafPayloadsOne_length thunk, leafPayloadsSeq_length rest]
theorem leafPayloadsOne_length :
    ∀ t : GpuThunk, (leafPayloadsOne t).length = numLeavesOne t
  | .leaf payload => rfl
  | .sequential thunks => by
      simp only [leafPayloadsOne, numLeavesOne]
      exact leafPayloadsSeq_length thunks
  | .conditional branch_thunks => by
      simp only [leafPayloadsOne, numLeavesOne]
      exact leafPayloadsBranches_length branch_thunks
  | .whileThunk condition_thunk_sequence body_thunk_sequence => by
      simp only [leafPayloadsOne, numLeavesOne, List.length_append]
      rw [leafPayloadsSeq_length condition_thunk_sequence,
        leafPayloadsSeq_length body_thunk_sequence]
theorem leafPayloadsBranches_length :
    ∀ bs : BranchSeqList,
      (leafPayloadsBranches bs).length = numLeavesBranches bs
  | .nil => rfl
  | .cons branch rest => by
      simp only [leafPayloadsBranches, numLeavesBranches, List.length_append]
      rw [leafPayloadsSeq_length branch, leafPayloadsBranches_length rest]
end

/-! ## Claim C2 -/

/-- C2: for every op tree built from Leaf, Sequential, Conditional (any
number of branches) and Loop nodes, at any nesting depth, `ForAllThunks`
applies the caller-supplied action to every Leaf exactly once and to no
composite node, in tree order (for a Loop, the leaves of the condition
sub-tree before those of the body sub-tree): the list of invocation results equals
the action applied to the Leaf nodes in tree order, and a tree with N
leaves yields exactly N invocations. -/
theorem ForAllThunks_visits_every_leaf_once {α : Type} (fn : GpuThunk → α)
    (ts : ThunkSequence) :
    ForAllThunks fn ts =
      (leafPayloadsSeq ts).map (fun p => fn (GpuThunk.leaf p)) ∧
    (ForAllThunks fn ts).length = numLeavesSeq ts := by
  refine ⟨ForAllThunks_eq_leafPayloads fn ts, ?_⟩
  rw [ForAllThunks_eq_leafPayloads fn ts, List.length_map]
  exact leafPayloadsSeq_length ts

/-! ## Claim C1 -/

/-- C1, counterexample to the claim as stated.  The claim says a constant
with non-empty content is never removed and a constant with empty content
and no references is always removed.  The code does the opposite: on a
module with the single unreferenced global `g`, the constant `g` with
non-empty content `[7]` gets its global erased (result `some []`), while on
a module with the single unreferenced global `e`, the constant `e` with
empty content leaves the module untouched. -/
theorem GlobalPruner_claim_counterexample :
    RemoveUnusedAndUninitializedGlobals
      [⟨"g", 0⟩] [⟨"g", [7]⟩] = some ([] : List GlobalVariable) ∧
    RemoveUnusedAndUninitializedGlobals
      [⟨"e", 0⟩] [⟨"e", []⟩] = some [⟨"e", 0⟩] := by
  exact ⟨rfl, rfl⟩

/-- C1 (amended): `RemoveUnusedAndUninitializedGlobals` prunes exactly the
constants with NON-empty content whose module global has no references: on a
module with distinct global names, a global of the input module survives iff
it is not both unreferenced and named by some constant with non-empty
content.  In particular a constant with empty content never causes a
removal, a constant with non-empty content and an unreferenced global always
does, and a constant with non-empty content but a referenced global leaves
it in place. -/
theorem GlobalPruner_prunes_exactly_nonempty_unreferenced
    (m m' : List GlobalVariable) (cs : List ConstantInfo)
    (hnd : (m.map GlobalVariable.name).Nodup)
    (h : RemoveUnusedAndUninitializedGlobals m cs = some m')
    (g : GlobalVariable) (hg : g ∈ m) :
    g ∈ m' ↔
      ¬ (g.numUses = 0 ∧ ∃ c ∈ cs, c.symbol_name = g.name ∧ c.content ≠ []) :=
  RemoveUnusedAndUninitializedGlobals_mem_iff cs m m' hnd h g hg

/-- Witness for the amended theorem of C1, at the concrete module
`[a(unused), b(1 use)]` and constants `a:[1]` (pruned), `b:[2]` (kept, in
use), `c:[]` (skipped, empty content). -/
theorem GlobalPruner_prunes_exactly_nonempty_unreferenced_witness :
    (⟨"b", 1⟩ : GlobalVariable) ∈ ([⟨"b", 1⟩] : List GlobalVariable) ↔
      ¬ ((⟨"b", 1⟩ : GlobalVariable).numUses = 0 ∧
        ∃ c ∈ ([⟨"a", [1]⟩, ⟨"b", [2]⟩, ⟨"c", []⟩] : List ConstantInfo),
          c.symbol_name = (⟨"b", 1⟩ : GlobalVariable).name ∧ c.content ≠ []) :=
  GlobalPruner_prunes_exactly_nonempty_unreferenced
    [⟨"a", 0⟩, ⟨"b", 1⟩] [⟨"b", 1⟩] [⟨"a", [1]⟩, ⟨"b", [2]⟩, ⟨"c", []⟩]
    (by decide) (by decide) ⟨"b", 1⟩ (by decide)

/-! ## Claim C9 -/

/-- C9: the pruner has the unstated precondition that every constant with
non-empty content names an existing module global; when violated, the
`CHECK` fires and the process aborts (`none`) rather than returning an
error. -/
theorem GlobalPruner_check_aborts_on_missing_global
    (m : List GlobalVariable) (cs : List ConstantInfo)
    (h : ∃ c ∈ cs, c.content ≠ [] ∧ getGlobalVariable m c.symbol_name = none) :
    RemoveUnusedAndUninitializedGlobals m cs = none :=
  RemoveUnusedAndUninitializedGlobals_aborts cs m h

/-- Witness for C9: the constant `x` with non-empty content and an empty
module makes the pruner abort. -/
theorem GlobalPruner_check_aborts_on_missing_global_witness :
    RemoveUnusedAndUninitializedGlobals [] [⟨"x", [1]⟩] = none :=
  GlobalPruner_check_aborts_on_missing_global [] [⟨"x", [1]⟩]
    ⟨⟨"x", [1]⟩, by decide, by decide, rfl⟩

/-! ## Claim C4 -/

/-- C4: after lowering the entry computation, the constant-global removal
pass runs if and only if the platform is not ROCm and the shared-constants
flag is enabled; when that condition is false the module is returned
untouched, so no global is removed. -/
theorem constantPruneStep_runs_iff_supported
    (p : PlatformId) (d : DebugOptions)
    (m : List GlobalVariable) (cs : List ConstantInfo) :
    (p ≠ PlatformId.rocm ∧ d.xla_gpu_enable_shared_constants = true →
      constantPruneStep p d m cs = RemoveUnusedAndUninitializedGlobals m cs) ∧
    ((p = PlatformId.rocm ∨ d.xla_gpu_enable_shared_constants = false) →
      constantPruneStep p d m cs = some m) := by
  constructor
  · rintro ⟨hp, hd⟩
    simp [constantPruneStep, supports_runtime_managed_constants, hp, hd]
  · rintro (hp | hd)
    · simp [constantPruneStep, supports_runtime_managed_constants, hp]
    · simp [constantPruneStep, supports_runtime_managed_constants, hd]

/-- Witness for C4: on CUDA with the flag on, the step is the pruner; on
ROCm (flag on) the module passes through unchanged. -/
theorem constantPruneStep_runs_iff_supported_witness :
    constantPruneStep PlatformId.cuda ⟨true⟩ [] [] =
      RemoveUnusedAndUninitializedGlobals [] [] ∧
    constantPruneStep PlatformId.rocm ⟨true⟩ [⟨"g", 0⟩] [] =
      some [⟨"g", 0⟩] :=
  ⟨(constantPruneStep_runs_iff_supported PlatformId.cuda ⟨true⟩ [] []).1
      ⟨by decide, rfl⟩,
   (constantPruneStep_runs_iff_supported PlatformId.rocm ⟨true⟩
      [⟨"g", 0⟩] []).2 (Or.inl rfl)⟩

/-! ## DeviceLinker lemmas -/

theorem compileUnit_nocancel (options : GpuAsmOpts) (u : NvJitLinkInput) :
    compileUnit options false u = .ok u := by
  simp [compileUnit]

theorem arch_check_false {supportedArchs : List CudaComputeCapability}
    {cc : CudaComputeCapability}
    (hcc : ∃ a ∈ supportedArchs, ccExceeds cc a = false) :
    (supportedArchs.all fun a => ccExceeds cc a) = false := by
  rw [List.all_eq_false]
  obtain ⟨a, ha, hfa⟩ := hcc
  exact ⟨a, ha, by simp [hfa]⟩

theorem mapM_compileUnit_nocancel (options : GpuAsmOpts) :
    ∀ units : List NvJitLinkInput,
      units.mapM (compileUnit options false) = .ok units
  | [] => rfl
  | u :: us => by
      rw [List.mapM_cons, compileUnit_nocancel,
        mapM_compileUnit_nocancel options us]
      rfl

/-- A batch in which every reference is defined by some unit passes the
link-time symbol-resolution check. -/
theorem link_check_passes (objs : List NvJitLinkInput)
    (h : ∀ o ∈ objs, ∀ s ∈ o.references,
      s ∈ (objs.map (fun o => o.defines)).flatten) :
    (objs.any fun o => o.references.any fun s =>
      !(((objs.map fun o => o.defines).flatten).contains s)) = false := by
  rw [List.any_eq_false]
  intro o ho
  rw [Bool.not_eq_true, List.any_eq_false]
  intro s hs
  simp [h o ho s hs]

/-! ## Claim C6 -/

/-- C6: if the target capability exceeds every architecture the toolchain
supports, `CompileAndLinkUsingLibNvJitLink` fails with
`UnsupportedArchitecture`, whatever the units and options are — in
particular even for a batch that would otherwise be cancelled or fail to
link, showing the check precedes any compilation. -/
theorem CompileAndLink_fails_on_unsupported_architecture
    (supportedArchs : List CudaComputeCapability)
    (cc : CudaComputeCapability) (units : List NvJitLinkInput)
    (options : GpuAsmOpts) (cancel_if_reg_spill : Bool)
    (h : ∀ a ∈ supportedArchs, ccExceeds cc a = true) :
    CompileAndLinkUsingLibNvJitLink supportedArchs cc units options
      cancel_if_reg_spill = .error .UnsupportedArchitecture := by
  unfold CompileAndLinkUsingLibNvJitLink
  rw [if_pos (List.all_eq_true.mpr h)]

/-- Witness for C6: capability (100, 0) against a toolchain supporting
(5, 2) and (9, 0), on a unit that would spill with cancellation on — the
architecture error still wins. -/
theorem CompileAndLink_fails_on_unsupported_architecture_witness :
    CompileAndLinkUsingLibNvJitLink [⟨5, 2⟩, ⟨9, 0⟩] ⟨100, 0⟩
      [⟨.kPtx, ["_Z6kernelPi"], ["_Z5magicv"], some 16, 32, 2⟩] ⟨true⟩ true =
      .error .UnsupportedArchitecture :=
  CompileAndLink_fails_on_unsupported_architecture
    [⟨5, 2⟩, ⟨9, 0⟩] ⟨100, 0⟩
    [⟨.kPtx, ["_Z6kernelPi"], ["_Z5magicv"], some 16, 32, 2⟩] ⟨true⟩ true
    (by decide)

/-- With spill cancellation off, a supported capability and a fully
resolved batch, linking succeeds and the binary provides all symbols the
units define. -/
theorem CompileAndLink_nocancel_resolved
    (supportedArchs : List CudaComputeCapability)
    (cc : CudaComputeCapability) (units : List NvJitLinkInput)
    (options : GpuAsmOpts)
    (hcc : ∃ a ∈ supportedArchs, ccExceeds cc a = false)
    (hres : ∀ o ∈ units, ∀ s ∈ o.references,
      s ∈ (units.map (fun o => o.defines)).flatten) :
    CompileAndLinkUsingLibNvJitLink supportedArchs cc units options false =
      .ok ⟨(units.map (fun o => o.defines)).flatten⟩ := by
  unfold CompileAndLinkUsingLibNvJitLink
  rw [arch_check_false hcc, if_neg Bool.false_ne_true,
    mapM_compileUnit_nocancel]
  dsimp only
  rw [link_check_passes units hres, if_neg Bool.false_ne_true]

/-! ## Claim C8 -/

/-- C8: every single self-contained device code unit (each referenced
symbol is defined by the unit itself) links into a valid binary on its own
at a supported capability — no multi-unit requirement. -/
theorem CompileAndLink_single_selfcontained_succeeds
    (supportedArchs : List CudaComputeCapability)
    (cc : CudaComputeCapability) (u : NvJitLinkInput) (options : GpuAsmOpts)
    (hcc : ∃ a ∈ supportedArchs, ccExceeds cc a = false)
    (hself : ∀ s ∈ u.references, s ∈ u.defines) :
    ∃ binary : LinkedBinary,
      CompileAndLinkUsingLibNvJitLink supportedArchs cc [u] options false =
        .ok binary ∧ binary.symbols = u.defines := by
  refine ⟨⟨([u].map (fun o => o.defines)).flatten⟩, ?_, by simp⟩
  apply CompileAndLink_nocancel_resolved supportedArchs cc [u] options hcc
  intro o ho s hs
  rw [List.mem_singleton] at ho
  subst ho
  simp [hself s hs]

/-- Witness for C8: the standalone kernel unit of the test, at capability
(5, 2) against a toolchain supporting (5, 2) and (9, 0). -/
theorem CompileAndLink_single_selfcontained_succeeds_witness :
    ∃ binary : LinkedBinary,
      CompileAndLinkUsingLibNvJitLink [⟨5, 2⟩, ⟨9, 0⟩] ⟨5, 2⟩
        [⟨.kPtx, ["_Z6kernelPi"], [], none, 15, 15⟩] ⟨false⟩ false =
        .ok binary ∧ binary.symbols = ["_Z6kernelPi"] :=
  CompileAndLink_single_selfcontained_succeeds [⟨5, 2⟩, ⟨9, 0⟩] ⟨5, 2⟩
    ⟨.kPtx, ["_Z6kernelPi"], [], none, 15, 15⟩ ⟨false⟩
    (by decide) (by decide)

/-! ## Claim C7 -/

/-- C7: a unit referencing a symbol defined by no unit of the batch
compiles on its own (no compile-time failure) but fails to link with
`UnresolvedSymbol`; supplying the defining unit alongside it makes the same
link succeed. -/
theorem CompileAndLink_unresolved_symbol_link_time
    (supportedArchs : List CudaComputeCapability)
    (cc : CudaComputeCapability) (u v : NvJitLinkInput) (options : GpuAsmOpts)
    (hcc : ∃ a ∈ supportedArchs, ccExceeds cc a = false)
    (hmiss : ∃ s ∈ u.references, s ∉ u.defines)
    (hres : ∀ o ∈ [u, v], ∀ s ∈ o.references,
      s ∈ ([u, v].map (fun o => o.defines)).flatten) :
    compileUnit options false u = .ok u ∧
    CompileAndLinkUsingLibNvJitLink supportedArchs cc [u] options false =
      .error .UnresolvedSymbol ∧
    ∃ binary : LinkedBinary,
      CompileAndLinkUsingLibNvJitLink supportedArchs cc [u, v] options
        false = .ok binary := by
  refine ⟨compileUnit_nocancel options u, ?_,
    ⟨⟨([u, v].map (fun o => o.defines)).flatten⟩,
      CompileAndLink_nocancel_resolved supportedArchs cc [u, v] options
        hcc hres⟩⟩
  unfold CompileAndLinkUsingLibNvJitLink
  rw [arch_check_false hcc, if_neg Bool.false_ne_true,
    mapM_compileUnit_nocancel]
  dsimp only
  have hch : ([u].any fun o => o.references.any fun s =>
      !((([u].map fun o => o.defines).flatten).contains s)) = true := by
    rw [List.any_eq_true]
    refine ⟨u, List.mem_singleton.mpr rfl, ?_⟩
    rw [List.any_eq_true]
    obtain ⟨s, hs, hnot⟩ := hmiss
    refine ⟨s, hs, ?_⟩
    simp [hnot]
  rw [hch, if_pos rfl]

/-- Witness for C7: the dependent kernel (references the external
`_Z5magicv`) alone fails to link; together with the dependee that defines
it, the pair links. -/
theorem CompileAndLink_unresolved_symbol_link_time_witness :
    compileUnit ⟨false⟩ false
      ⟨.kPtx, ["_Z6kernelPi"], ["_Z5magicv"], none, 10, 5⟩ =
      .ok ⟨.kPtx, ["_Z6kernelPi"], ["_Z5magicv"], none, 10, 5⟩ ∧
    CompileAndLinkUsingLibNvJitLink [⟨5, 2⟩, ⟨9, 0⟩] ⟨5, 2⟩
      [⟨.kPtx, ["_Z6kernelPi"], ["_Z5magicv"], none, 10, 5⟩] ⟨false⟩ false =
      .error .UnresolvedSymbol ∧
    ∃ binary : LinkedBinary,
      CompileAndLinkUsingLibNvJitLink [⟨5, 2⟩, ⟨9, 0⟩] ⟨5, 2⟩
        [⟨.kPtx, ["_Z6kernelPi"], ["_Z5magicv"], none, 10, 5⟩,
         ⟨.kPtx, ["_Z5magicv"], [], none, 2, 2⟩] ⟨false⟩ false =
        .ok binary :=
  CompileAndLink_unresolved_symbol_link_time [⟨5, 2⟩, ⟨9, 0⟩] ⟨5, 2⟩
    ⟨.kPtx, ["_Z6kernelPi"], ["_Z5magicv"], none, 10, 5⟩
    ⟨.kPtx, ["_Z5magicv"], [], none, 2, 2⟩ ⟨false⟩
    (by decide) (by decide) (by decide)

/-! ## Claim C3 -/

/-- C3: with optimizations disabled, a unit whose register demand exceeds
its artificial cap makes `CompileAndLinkUsingLibNvJitLink` fail with
`RegisterSpillCancelled` when spill cancellation is enabled, while the
identical input links successfully when cancellation is disabled. -/
theorem CompileAndLink_cancels_on_reg_spill
    (supportedArchs : List CudaComputeCapability)
    (cc : CudaComputeCapability) (u v : NvJitLinkInput)
    (hcc : ∃ a ∈ supportedArchs, ccExceeds cc a = false)
    (hspill : unitSpills true u = true)
    (hres : ∀ o ∈ [u, v], ∀ s ∈ o.references,
      s ∈ ([u, v].map (fun o => o.defines)).flatten) :
    CompileAndLinkUsingLibNvJitLink supportedArchs cc [u, v] ⟨true⟩ true =
      .error .RegisterSpillCancelled ∧
    ∃ binary : LinkedBinary,
      CompileAndLinkUsingLibNvJitLink supportedArchs cc [u, v] ⟨true⟩
        false = .ok binary := by
  refine ⟨?_, ⟨⟨([u, v].map (fun o => o.defines)).flatten⟩,
    CompileAndLink_nocancel_resolved supportedArchs cc [u, v] ⟨true⟩
      hcc hres⟩⟩
  unfold CompileAndLinkUsingLibNvJitLink
  rw [arch_check_false hcc, if_neg Bool.false_ne_true]
  have hcu : compileUnit ⟨true⟩ true u = .error .RegisterSpillCancelled := by
    simp [compileUnit, hspill]
  rw [List.mapM_cons, hcu]
  rfl

/-- Witness for C3: the dependent kernel with a `.maxnreg 16` cap and
register demand 32 without optimizations (2 with), linked with the
dependee, at capability (5, 2). -/
theorem CompileAndLink_cancels_on_reg_spill_witness :
    CompileAndLinkUsingLibNvJitLink [⟨5, 2⟩, ⟨9, 0⟩] ⟨5, 2⟩
      [⟨.kPtx, ["_Z6kernelPi"], ["_Z5magicv"], some 16, 32, 2⟩,
       ⟨.kPtx, ["_Z5magicv"], [], none, 2, 2⟩] ⟨true⟩ true =
      .error .RegisterSpillCancelled ∧
    ∃ binary : LinkedBinary,
      CompileAndLinkUsingLibNvJitLink [⟨5, 2⟩, ⟨9, 0⟩] ⟨5, 2⟩
        [⟨.kPtx, ["_Z6kernelPi"], ["_Z5magicv"], some 16, 32, 2⟩,
         ⟨.kPtx, ["_Z5magicv"], [], none, 2, 2⟩] ⟨true⟩ false =
        .ok binary :=
  CompileAndLink_cancels_on_reg_spill [⟨5, 2⟩, ⟨9, 0⟩] ⟨5, 2⟩
    ⟨.kPtx, ["_Z6kernelPi"], ["_Z5magicv"], some 16, 32, 2⟩
    ⟨.kPtx, ["_Z5magicv"], [], none, 2, 2⟩
    (by decide) (by decide) (by decide)

/-! ## Claim C5 -/

/-- An argument with an attribute outside the allowlist makes the
verification loop return an error. -/
theorem checkArgAttrs_error :
    ∀ args : List MlirFuncArg,
      (∃ arg ∈ args, ∃ a ∈ arg.attrNames, a ∉ allowedArgAttrNames) →
      checkArgAttrs args = .error "unexpected argument attribute"
  | [], hex => by
      obtain ⟨arg, harg, _⟩ := hex
      cases harg
  | arg :: rest, hex => by
      obtain ⟨badArg, hbadArg, a, ha, hnot⟩ := hex
      unfold checkArgAttrs
      rcases List.mem_cons.mp hbadArg with rfl | hrest
      · have hfalse : (badArg.attrNames.all fun x =>
            allowedArgAttrNames.contains x) = false := by
          rw [List.all_eq_false]
          exact ⟨a, ha, by simp [hnot]⟩
        rw [hfalse, if_neg Bool.false_ne_true]
      · by_cases hall : (arg.attrNames.all fun x =>
            allowedArgAttrNames.contains x) = true
        · rw [if_pos hall]
          exact checkArgAttrs_error rest ⟨badArg, hrest, a, ha, hnot⟩
        · rw [if_neg hall]

/-- C5: any entry-function argument attribute whose name is outside the
allowlist (lmhlo.params, lmhlo.param_shape_index, lmhlo.constant_name,
lmhlo.must_alias, lmhlo.output_index) makes `GetMlirAllocationInfo` — and
with it the compilation step it serves — return a descriptive error, for
every function signature containing such an attribute and every
continuation `setUp`. -/
theorem GetMlirAllocationInfo_rejects_unknown_attrs {α : Type}
    (setUp : List Nat → Except String α) (args : List MlirFuncArg)
    (h : ∃ arg ∈ args, ∃ a ∈ arg.attrNames, a ∉ allowedArgAttrNames) :
    ∃ msg, GetMlirAllocationInfo setUp args = .error msg := by
  cases hs : computeBufferSizes args with
  | error e =>
      exact ⟨e, by simp [GetMlirAllocationInfo, hs]⟩
  | ok sizes =>
      refine ⟨"unexpected argument attribute", ?_⟩
      simp [GetMlirAllocationInfo, hs, checkArgAttrs_error args h]

/-- Witness for C5: a single well-typed argument carrying the attribute
`foo.bar` is rejected. -/
theorem GetMlirAllocationInfo_rejects_unknown_attrs_witness :
    ∃ msg, GetMlirAllocationInfo (fun sizes => Except.ok sizes)
      [⟨⟨true, some 4, 2⟩, ["foo.bar"]⟩] = .error msg :=
  GetMlirAllocationInfo_rejects_unknown_attrs (fun sizes => Except.ok sizes)
    [⟨⟨true, some 4, 2⟩, ["foo.bar"]⟩]
    ⟨⟨⟨true, some 4, 2⟩, ["foo.bar"]⟩, by decide, "foo.bar", by decide,
      by decide⟩

/-! ## Claim C10 -/

/-- C10: the per-color alignment function supplied to `BufferAssigner::Run`
is constant — it returns `kXlaAllocatedBufferAlignBytes` for every color,
so alignment never depends on the color of a buffer. -/
theorem color_alignment_is_constant :
    ∀ c c' : LogicalBufferColor,
      color_alignment c = color_alignment c' ∧
      color_alignment c = kXlaAllocatedBufferAlignBytes :=
  fun _ _ => ⟨rfl, rfl⟩

end XlaGpu
